import Mathlib

/-!
Verification of the `.puz` crossword decoder (`puz.rs`).

The Rust sources are embedded shallowly:
* byte streams are `List Nat` (each element a byte value 0-255), and every
  cursor-consuming reader is a function `List Nat → Except PuzError (α × List Nat)`
  returning the parsed value together with the unread remainder;
* `Vec<String>` grids become `List (List Char)`;
* `HashMap<u16, String>` clue maps become association lists built with an
  insert-or-replace operation (`insertAssoc`), so `.len()` is list length;
* `u8`/`u16` fields become `Nat`; the only arithmetic done on them is the
  little-endian reassembly `b0 + 256 * b1`, which cannot overflow.
-/

namespace Puz

deriving instance DecidableEq for Except

/-- `types.rs`: the free (fillable) square marker used in the blank grid. -/
def FREE_SQUARE : Char := '-'

/-- `types.rs`: the blocked ("black") square marker. -/
def TAKEN_SQUARE : Char := '.'

/-- Cell lookup in a row-major grid: row `r`, column `c`. -/
def cellAt {α : Type} (grid : List (List α)) (r c : Nat) : Option α :=
  grid[r]?.bind (fun row => row[c]?)

/-- `grids.rs` `cell_needs_across_clue`: the cell is free, the cell to its
right (same row) exists and is free, and the cell is at the left edge or the
cell to its left is blocked. -/
def cell_needs_across_clue (grid : List (List Char)) (row col : Nat) : Bool :=
  match grid[row]? with
  | none => false
  | some row_str =>
    match row_str[col]? with
    | none => false
    | some this_char =>
      if this_char = FREE_SQUARE then
        match row_str[col + 1]? with
        | none => false
        | some next_char =>
          if next_char = FREE_SQUARE then
            decide (col = 0) || (row_str[col - 1]? == some TAKEN_SQUARE)
          else false
      else false

/-- `grids.rs` `cell_needs_down_clue`: the cell is free, the cell below it
exists and is free, and the cell is at the top edge or the cell above it is
blocked. -/
def cell_needs_down_clue (grid : List (List Char)) (row col : Nat) : Bool :=
  match grid[row]? with
  | none => false
  | some row_str =>
    match row_str[col]? with
    | none => false
    | some this_char =>
      if this_char = FREE_SQUARE then
        match grid[row + 1]? with
        | none => false
        | some next_row =>
          match next_row[col]? with
          | none => false
          | some next_char =>
            if next_char = FREE_SQUARE then
              decide (row = 0) ||
                ((grid[row - 1]?.bind (fun r => r[col]?)) == some TAKEN_SQUARE)
            else false
      else false

/-- `error.rs` `PuzError`, restricted to the variants the decode pipeline can
produce.  `IoError` carries message/kind/position strings in the source that
come from `std::io::Error`; they are irrelevant to control flow and dropped. -/
inductive PuzError : Type where
  | InvalidMagic (found : List Nat)
  | InvalidDimensions (width height : Nat)
  | InvalidClueCount (expected found : Nat)
  | SectionSizeMismatch (sectionName : String) (expected found : Nat)
  | InvalidGrid (reason : String)
  | InvalidClues (reason : String)
  | IoError
  deriving DecidableEq, Repr

/-- `error.rs` `PuzWarning`, restricted to the variants the pipeline emits. -/
inductive PuzWarning : Type where
  | SkippedExtension (sectionName reason : String)
  | ScrambledPuzzle (version : String)
  deriving DecidableEq, Repr

/-- `types.rs` `PuzzleInfo`. -/
structure PuzzleInfo : Type where
  title : String
  author : String
  copyright : String
  notes : String
  width : Nat
  height : Nat
  version : String
  is_scrambled : Bool
  deriving DecidableEq, Repr

/-- `types.rs` `Grid`: rows of single characters ordered top to bottom. -/
structure Grid : Type where
  blank : List (List Char)
  solution : List (List Char)
  deriving DecidableEq, Repr

/-- `types.rs` `Clues`: `HashMap<u16, String>` per direction, modelled as
association lists with distinct keys (see `insertAssoc`). -/
structure Clues : Type where
  across : List (Nat × String)
  down : List (Nat × String)
  deriving DecidableEq, Repr

/-- `types.rs` `Rebus`. -/
structure Rebus : Type where
  grid : List (List Nat)
  table : List (Nat × String)
  deriving DecidableEq, Repr

/-- `types.rs` `Extensions`. -/
structure Extensions : Type where
  rebus : Option Rebus
  circles : Option (List (List Bool))
  given : Option (List (List Bool))
  deriving DecidableEq, Repr

/-- `types.rs` `Puzzle`. -/
structure Puzzle : Type where
  info : PuzzleInfo
  grid : Grid
  clues : Clues
  extensions : Extensions
  deriving DecidableEq, Repr

/-- `error.rs` `ParseResult`: a successful value plus accumulated warnings. -/
structure ParseResult (α : Type) : Type where
  result : α
  warnings : List PuzWarning
  deriving DecidableEq, Repr

/-- A UTF-8 continuation byte (`10xxxxxx`). -/
def utf8Cont (b : Nat) : Bool := 128 ≤ b && b ≤ 191

/-- Number of continuation bytes demanded by a UTF-8 lead byte; 4 marks an
invalid lead byte (0x80-0xC1 and 0xF5-0xFF). -/
def utf8Need (b : Nat) : Nat :=
  if b ≤ 0x7F then 0
  else if b ≤ 0xC1 then 4
  else if b ≤ 0xDF then 1
  else if b ≤ 0xEF then 2
  else if b ≤ 0xF4 then 3
  else 4

/-- Admissible range of the first continuation byte, which is narrowed for
lead bytes 0xE0/0xED (overlong forms, surrogates) and 0xF0/0xF4 (overlong
forms, beyond U+10FFFF). -/
def utf8FirstContOk (b b1 : Nat) : Bool :=
  if b = 0xE0 then decide (0xA0 ≤ b1) && decide (b1 ≤ 0xBF)
  else if b = 0xED then decide (0x80 ≤ b1) && decide (b1 ≤ 0x9F)
  else if b = 0xF0 then decide (0x90 ≤ b1) && decide (b1 ≤ 0xBF)
  else if b = 0xF4 then decide (0x80 ≤ b1) && decide (b1 ≤ 0x8F)
  else utf8Cont b1

/-- Validity of the continuation bytes following lead byte `b`. -/
def utf8ContOk (b : Nat) (conts : List Nat) : Bool :=
  match conts with
  | [] => true
  | b1 :: more => utf8FirstContOk b b1 && more.all utf8Cont

/-- Code point assembled from a lead byte and its continuation bytes. -/
def utf8Cp (b : Nat) (conts : List Nat) : Nat :=
  match conts with
  | [] => b
  | [b1] => (b - 0xC0) * 0x40 + (b1 - 0x80)
  | [b1, b2] => (b - 0xE0) * 0x1000 + (b1 - 0x80) * 0x40 + (b2 - 0x80)
  | [b1, b2, b3] =>
    (b - 0xF0) * 0x40000 + (b1 - 0x80) * 0x1000 + (b2 - 0x80) * 0x40 + (b3 - 0x80)
  | _ => 0

/-- Models `std::str::from_utf8` (the Rust standard library's strict UTF-8
validator, external to this repository): decodes a byte list as UTF-8,
returning `none` exactly on invalid UTF-8 (overlong forms, surrogates,
out-of-range lead bytes, truncated sequences all rejected).  Structured with
explicit fuel so that it reduces by kernel computation. -/
def utf8DecodeAux : Nat → List Nat → Option (List Char)
  | _, [] => some []
  | 0, _ :: _ => none
  | fuel + 1, b :: rest =>
    if utf8Need b = 4 then none
    else if rest.length < utf8Need b then none
    else if utf8ContOk b (rest.take (utf8Need b)) then
      (utf8DecodeAux fuel (rest.drop (utf8Need b))).map
        (fun cs => Char.ofNat (utf8Cp b (rest.take (utf8Need b))) :: cs)
    else none

/-- Entry point of the UTF-8 validator: the fuel `l.length` is enough because
every step consumes at least the lead byte. -/
def utf8Decode? (l : List Nat) : Option (List Char) :=
  utf8DecodeAux l.length l

/-- `io.rs` `windows_1252_to_char`: bytes 0-127 and 160-255 map to the
same-valued code point; 128-159 go through the Windows-1252 substitution
table. -/
def windows_1252_to_char (b : Nat) : Char :=
  if b ≤ 127 then Char.ofNat b
  else if 160 ≤ b then Char.ofNat b
  else match b with
    | 128 => Char.ofNat 0x20AC -- Euro sign
    | 129 => Char.ofNat 0x0081 -- Unused
    | 130 => Char.ofNat 0x201A -- Single low-9 quotation mark
    | 131 => Char.ofNat 0x0192 -- Latin small letter f with hook
    | 132 => Char.ofNat 0x201E -- Double low-9 quotation mark
    | 133 => Char.ofNat 0x2026 -- Horizontal ellipsis
    | 134 => Char.ofNat 0x2020 -- Dagger
    | 135 => Char.ofNat 0x2021 -- Double dagger
    | 136 => Char.ofNat 0x02C6 -- Modifier letter circumflex accent
    | 137 => Char.ofNat 0x2030 -- Per mille sign
    | 138 => Char.ofNat 0x0160 -- Latin capital letter S with caron
    | 139 => Char.ofNat 0x2039 -- Single left-pointing angle quotation mark
    | 140 => Char.ofNat 0x0152 -- Latin capital ligature OE
    | 141 => Char.ofNat 0x008D -- Unused
    | 142 => Char.ofNat 0x017D -- Latin capital letter Z with caron
    | 143 => Char.ofNat 0x008F -- Unused
    | 144 => Char.ofNat 0x0090 -- Unused
    | 145 => Char.ofNat 0x2018 -- Left single quotation mark
    | 146 => Char.ofNat 0x2019 -- Right single quotation mark
    | 147 => Char.ofNat 0x201C -- Left double quotation mark
    | 148 => Char.ofNat 0x201D -- Right double quotation mark
    | 149 => Char.ofNat 0x2022 -- Bullet
    | 150 => Char.ofNat 0x2013 -- En dash
    | 151 => Char.ofNat 0x2014 -- Em dash
    | 152 => Char.ofNat 0x02DC -- Small tilde
    | 153 => Char.ofNat 0x2122 -- Trade mark sign
    | 154 => Char.ofNat 0x0161 -- Latin small letter s with caron
    | 155 => Char.ofNat 0x203A -- Single right-pointing angle quotation mark
    | 156 => Char.ofNat 0x0153 -- Latin small ligature oe
    | 157 => Char.ofNat 0x009D -- Unused
    | 158 => Char.ofNat 0x017E -- Latin small letter z with caron
    | 159 => Char.ofNat 0x0178 -- Latin capital letter Y with diaeresis
    | _ => Char.ofNat b        -- unreachable: 128-159 all enumerated above

/-- `io.rs` `decode_puz_string`: try strict UTF-8, fall back to byte-by-byte
Windows-1252.  Both branches succeed. -/
def decode_puz_string (bytes : List Nat) : Except PuzError String :=
  match utf8Decode? bytes with
  | some cs => .ok (String.mk cs)
  | none => .ok (String.mk (bytes.map windows_1252_to_char))

/-- The pure value `decode_puz_string` always returns. -/
def puzDecode (bytes : List Nat) : String :=
  match utf8Decode? bytes with
  | some cs => String.mk cs
  | none => String.mk (bytes.map windows_1252_to_char)

/-- `io.rs` `read_bytes` / `read_exact`: take `n` bytes off the stream, or
fail with an I/O error when the stream is shorter. -/
def read_exact (n : Nat) (input : List Nat) : Except PuzError (List Nat × List Nat) :=
  if n ≤ input.length then .ok (input.take n, input.drop n) else .error .IoError

/-- `io.rs` `read_u8`. -/
def read_u8 (input : List Nat) : Except PuzError (Nat × List Nat) :=
  match input with
  | [] => .error .IoError
  | b :: rest => .ok (b, rest)

/-- `io.rs` `read_u16`: two bytes, little endian. -/
def read_u16 (input : List Nat) : Except PuzError (Nat × List Nat) :=
  match input with
  | b0 :: b1 :: rest => .ok (b0 + 256 * b1, rest)
  | _ => .error .IoError

/-- The byte run of a NUL-terminated string: bytes up to (excluding) the
first 0, failing with an I/O error when the stream ends before a 0. -/
def readCString : List Nat → Except PuzError (List Nat × List Nat)
  | [] => .error .IoError
  | b :: rest =>
    if b = 0 then .ok ([], rest)
    else
      match readCString rest with
      | .ok (s, r) => .ok (b :: s, r)
      | .error e => .error e

/-- `io.rs` `read_string_until_nul`: bytes until NUL, then decoded. -/
def read_string_until_nul (input : List Nat) : Except PuzError (String × List Nat) :=
  match readCString input with
  | .ok (bytes, rest) =>
    match decode_puz_string bytes with
    | .ok s => .ok (s, rest)
    | .error e => .error e
  | .error e => .error e

/-- The 12-byte magic string `"ACROSS&DOWN\x00"`. -/
def acrossDownMagic : List Nat := [65, 67, 82, 79, 83, 83, 38, 68, 79, 87, 78, 0]

/-- `io.rs` `validate_file_magic`: skip the 2-byte checksum, then demand the
magic string. -/
def validate_file_magic (input : List Nat) : Except PuzError (List Nat) :=
  match read_exact 2 input with
  | .error e => .error e
  | .ok (_, r1) =>
    match read_exact 12 r1 with
    | .error e => .error e
    | .ok (magic, r2) =>
      if magic = acrossDownMagic then .ok r2 else .error (.InvalidMagic magic)

/-- Chunking with explicit fuel (`chunks` in Rust, reached only with a
positive width; width 0, on which Rust's `chunks` panics, yields `[]`). -/
def chunkAux {α : Type} : Nat → Nat → List α → List (List α)
  | _, _, [] => []
  | 0, _, _ => []
  | fuel + 1, width, a :: rest =>
    if width = 0 then []
    else (a :: rest).take width :: chunkAux fuel width ((a :: rest).drop width)

/-- `grids.rs` `string_to_grid`: reshape a flat cell list into rows of
`width` cells. -/
def chunkList {α : Type} (width : Nat) (l : List α) : List (List α) :=
  chunkAux l.length width l

/-- `grids.rs` `validate_grid_consistency`, inner cell loop: blocked squares
must agree between solution and blank rows. -/
def vgcCells : Nat → Nat → List (Char × Char) → Except PuzError Unit
  | _, _, [] => .ok ()
  | i, j, (sol_char, blank_char) :: rest =>
    if (sol_char == TAKEN_SQUARE) != (blank_char == TAKEN_SQUARE) then
      .error (.InvalidGrid ("Grid consistency error at (" ++ toString i ++ ", " ++
        toString j ++ "): blocked squares don't match"))
    else vgcCells i (j + 1) rest

/-- `grids.rs` `validate_grid_consistency`, row loop: every row must have
exactly `width` cells in both grids. -/
def vgcRows (width : Nat) : Nat → List (List Char × List Char) → Except PuzError Unit
  | _, [] => .ok ()
  | i, (sol_row, blank_row) :: rest =>
    if sol_row.length ≠ width ∨ blank_row.length ≠ width then
      .error (.InvalidGrid ("Grid width mismatch at row " ++ toString i ++
        ": expected " ++ toString width))
    else
      match vgcCells i 0 (sol_row.zip blank_row) with
      | .error e => .error e
      | .ok _ => vgcRows width (i + 1) rest

/-- `grids.rs` `validate_grid_consistency`. -/
def validate_grid_consistency (solution blank : List (List Char)) (width height : Nat) :
    Except PuzError Unit :=
  if solution.length ≠ height ∨ blank.length ≠ height then
    .error (.InvalidGrid ("Grid height mismatch: expected " ++ toString height))
  else vgcRows width 0 (solution.zip blank)

/-- `grids.rs` `parse_grids`: read two `width*height` grids (solution first,
then blank), reshape row-wise, and validate their consistency. -/
def parse_grids (input : List Nat) (width height : Nat) :
    Except PuzError (Grid × List Nat) :=
  match read_exact (width * height) input with
  | .error e => .error e
  | .ok (solution_bytes, r1) =>
  match read_exact (width * height) r1 with
  | .error e => .error e
  | .ok (blank_bytes, r2) =>
  let solution := chunkList width (solution_bytes.map Char.ofNat)
  let blank := chunkList width (blank_bytes.map Char.ofNat)
  match validate_grid_consistency solution blank width height with
  | .error e => .error e
  | .ok _ => .ok ({ blank := blank, solution := solution }, r2)

/-- `validation.rs` `is_valid_puzzle_char`: ASCII alphanumeric or one of the
whitelisted punctuation characters (space, dash, apostrophe, ampersand,
period, exclamation mark, question mark). -/
def is_valid_puzzle_char (c : Char) : Bool :=
  c.isAlphanum || c == ' ' || c == '-' || c == Char.ofNat 39 ||
    c == '&' || c == '.' || c == '!' || c == '?'

/-- `validation.rs` `validate_grid_structure`, inner cell loop: blocked
squares must agree, and non-blocked solution cells must hold an allowed
puzzle character. -/
def vgsCells : Nat → Nat → List (Char × Char) → Except PuzError Unit
  | _, _, [] => .ok ()
  | i, j, (blank_char, solution_char) :: rest =>
    if (blank_char == TAKEN_SQUARE) != (solution_char == TAKEN_SQUARE) then
      .error (.InvalidGrid ("Blocked square mismatch at (" ++ toString i ++ ", " ++
        toString j ++ ")"))
    else if !(blank_char == TAKEN_SQUARE) && !(is_valid_puzzle_char solution_char) then
      .error (.InvalidGrid ("Invalid character " ++ toString solution_char ++ " at (" ++
        toString i ++ ", " ++ toString j ++ ")"))
    else vgsCells i (j + 1) rest

/-- `validation.rs` `validate_grid_structure`, row loop. -/
def vgsRows : Nat → List (List Char × List Char) → Except PuzError Unit
  | _, [] => .ok ()
  | i, (blank_row, solution_row) :: rest =>
    if blank_row.length ≠ solution_row.length then
      .error (.InvalidGrid ("Row " ++ toString i ++ " has mismatched widths"))
    else
      match vgsCells i 0 (blank_row.zip solution_row) with
      | .error e => .error e
      | .ok _ => vgsRows (i + 1) rest

/-- `validation.rs` `validate_grid_structure`. -/
def validate_grid_structure (blank solution : List (List Char)) : Except PuzError Unit :=
  if blank.length ≠ solution.length then
    .error (.InvalidGrid "Blank and solution grids have different heights")
  else vgsRows 0 (blank.zip solution)

/-- The scan width used by `process_clues` and `count_expected_clues`:
`grid[0].len()` when the grid is non-empty, else 0. -/
def gridWidth (grid : List (List Char)) : Nat :=
  if grid.length > 0 then (grid.headD []).length else 0

/-- The row-major scan order of the clue deriver and the validator: rows top
to bottom, columns left to right. -/
def gridCells (grid : List (List Char)) : List (Nat × Nat) :=
  (List.range grid.length).flatMap
    (fun r => (List.range (gridWidth grid)).map (fun c => (r, c)))

/-- `validation.rs` `count_expected_clues`, across counter over a cell list. -/
def acrossCount (grid : List (List Char)) : List (Nat × Nat) → Nat
  | [] => 0
  | rc :: rest =>
    (if cell_needs_across_clue grid rc.1 rc.2 then 1 else 0) + acrossCount grid rest

/-- `validation.rs` `count_expected_clues`, down counter over a cell list. -/
def downCount (grid : List (List Char)) : List (Nat × Nat) → Nat
  | [] => 0
  | rc :: rest =>
    (if cell_needs_down_clue grid rc.1 rc.2 then 1 else 0) + downCount grid rest

/-- `validation.rs` `count_expected_clues`: tallies of across- and
down-starting cells over the row-major scan. -/
def count_expected_clues (grid : List (List Char)) : Nat × Nat :=
  (acrossCount grid (gridCells grid), downCount grid (gridCells grid))

/-- `HashMap::insert` on an association list: replace the entry with an equal
key, or append a new entry. -/
def insertAssoc (m : List (Nat × String)) (k : Nat) (v : String) : List (Nat × String) :=
  if m.any (fun p => p.1 == k) then
    m.map (fun p => if p.1 == k then (k, v) else p)
  else m ++ [(k, v)]

/-- Mutable state of the `process_clues` scan (`clues.rs`): the two clue maps
being filled, the index into the flat clue list, and the next clue number.
`clue_number` is a `u16` in the source; it is bounded by the number of
starting cells plus one, which for puzzle grids (width, height ≤ 255) stays
far below 2^16, so it is modelled as `Nat`. -/
structure ClueScanState : Type where
  across : List (Nat × String)
  down : List (Nat × String)
  clue_index : Nat
  clue_number : Nat
  deriving DecidableEq, Repr

/-- One cell of the `process_clues` scan: consume the across string (if the
cell starts an across entry) and then the down string (if it starts a down
entry), both under the same clue number, which is then incremented. -/
def processCell (g : List (List Char)) (cs : List String) (row col : Nat)
    (st : ClueScanState) : Except PuzError ClueScanState :=
  let needs_across := cell_needs_across_clue g row col
  let needs_down := cell_needs_down_clue g row col
  if needs_across || needs_down then
    match (if needs_across then
            match cs[st.clue_index]? with
            | some s => Except.ok { st with
                across := insertAssoc st.across st.clue_number s,
                clue_index := st.clue_index + 1 }
            | none => Except.error (PuzError.InvalidClues
                ("Not enough clues provided: need across clue for position " ++
                  toString st.clue_number))
          else Except.ok st) with
    | .error e => .error e
    | .ok st1 =>
      match (if needs_down then
              match cs[st1.clue_index]? with
              | some s => Except.ok { st1 with
                  down := insertAssoc st1.down st1.clue_number s,
                  clue_index := st1.clue_index + 1 }
              | none => Except.error (PuzError.InvalidClues
                  ("Not enough clues provided: need down clue for position " ++
                    toString st1.clue_number))
            else Except.ok st1) with
      | .error e => .error e
      | .ok st2 => .ok { st2 with clue_number := st2.clue_number + 1 }
  else .ok st

/-- The `process_clues` double loop, folded over the row-major cell list. -/
def processCells (g : List (List Char)) (cs : List String) :
    List (Nat × Nat) → ClueScanState → Except PuzError ClueScanState
  | [], st => .ok st
  | rc :: rest, st =>
    match processCell g cs rc.1 rc.2 st with
    | .error e => .error e
    | .ok st1 => processCells g cs rest st1

/-- `clues.rs` `process_clues`: walk the blank grid in scan order assigning
the flat clue strings, then reject leftover strings. -/
def process_clues (blank_grid : List (List Char)) (clue_strings : List String) :
    Except PuzError Clues :=
  match processCells blank_grid clue_strings (gridCells blank_grid)
      { across := [], down := [], clue_index := 0, clue_number := 1 } with
  | .error e => .error e
  | .ok final =>
    if final.clue_index < clue_strings.length then
      .error (.InvalidClues ("Too many clues provided: expected " ++
        toString final.clue_index ++ ", got " ++ toString clue_strings.length))
    else .ok { across := final.across, down := final.down }

/-- `validation.rs` `validate_clue_consistency`: recount expected clues from
the blank grid and compare with the assembled map sizes.  (The source also
computes a `width*height` total that feeds no decision; it is omitted.) -/
def validate_clue_consistency (puzzle : Puzzle) : Except PuzError Unit :=
  if puzzle.clues.across.length ≠ (count_expected_clues puzzle.grid.blank).1 then
    .error (.InvalidClues ("Across clue count mismatch: expected " ++
      toString (count_expected_clues puzzle.grid.blank).1 ++ ", got " ++
      toString puzzle.clues.across.length))
  else if puzzle.clues.down.length ≠ (count_expected_clues puzzle.grid.blank).2 then
    .error (.InvalidClues ("Down clue count mismatch: expected " ++
      toString (count_expected_clues puzzle.grid.blank).2 ++ ", got " ++
      toString puzzle.clues.down.length))
  else .ok ()

/-- `validation.rs` `validate_puzzle_dimensions`. -/
def validate_puzzle_dimensions (width height : Nat) : Except PuzError Unit :=
  if width = 0 ∨ height = 0 then .error (.InvalidDimensions width height) else .ok ()

/-- `validation.rs` `validate_puzzle`. -/
def validate_puzzle (puzzle : Puzzle) : Except PuzError Unit :=
  match validate_puzzle_dimensions puzzle.info.width puzzle.info.height with
  | .error e => .error e
  | .ok _ =>
    match validate_grid_structure puzzle.grid.blank puzzle.grid.solution with
    | .error e => .error e
    | .ok _ => validate_clue_consistency puzzle

/-- `header.rs` `Header`. -/
structure Header : Type where
  width : Nat
  height : Nat
  num_clues : Nat
  version : String
  bitmask : Nat
  is_scrambled : Bool
  deriving DecidableEq, Repr

/-- Rust `trim_end_matches('\0')`: drop every trailing NUL character. -/
def trimTrailingNuls (s : String) : String :=
  String.mk ((s.data.reverse.dropWhile (fun c => c == Char.ofNat 0)).reverse)

/-- `header.rs` `parse_header`: skip 10 bytes (CIB + masked checksums), read
the 4-byte version text, skip 16 reserved bytes, then read width, height,
clue count, bitmask and scrambled tag, rejecting zero dimensions. -/
def parse_header (input : List Nat) : Except PuzError (Header × List Nat) :=
  match read_exact 10 input with
  | .error e => .error e
  | .ok (_, r1) =>
  match read_exact 4 r1 with
  | .error e => .error e
  | .ok (version_bytes, r2) =>
  match decode_puz_string version_bytes with
  | .error e => .error e
  | .ok version =>
  match read_exact 16 r2 with
  | .error e => .error e
  | .ok (_, r3) =>
  match read_u8 r3 with
  | .error e => .error e
  | .ok (width, r4) =>
  match read_u8 r4 with
  | .error e => .error e
  | .ok (height, r5) =>
  match read_u16 r5 with
  | .error e => .error e
  | .ok (num_clues, r6) =>
  match read_u16 r6 with
  | .error e => .error e
  | .ok (bitmask, r7) =>
  match read_u16 r7 with
  | .error e => .error e
  | .ok (scrambled_tag, r8) =>
  if width = 0 ∨ height = 0 then .error (.InvalidDimensions width height)
  else .ok ({ width := width, height := height, num_clues := num_clues,
              version := trimTrailingNuls version, bitmask := bitmask,
              is_scrambled := scrambled_tag != 0 }, r8)

/-- `strings.rs` `StringData`. -/
structure StringData : Type where
  title : String
  author : String
  copyright : String
  notes : String
  clues : List String
  deriving DecidableEq, Repr

/-- The clue loop of `strings.rs` `parse_strings`: read `k` more NUL-terminated
strings, having already read `found` of the `expected` clues; a read failure
becomes `InvalidClueCount` with the current count. -/
def readClues (expected : Nat) : Nat → Nat → List Nat → Except PuzError (List String × List Nat)
  | _found, 0, input => .ok ([], input)
  | found, k + 1, input =>
    match read_string_until_nul input with
    | .ok (clue, rest) =>
      match readClues expected (found + 1) k rest with
      | .ok (cs, r) => .ok (clue :: cs, r)
      | .error e => .error e
    | .error _e => .error (.InvalidClueCount expected found)

/-- `strings.rs` `parse_strings`: title, author, copyright, `num_clues` clue
strings, then notes, with a redundant final length check. -/
def parse_strings (input : List Nat) (num_clues : Nat) :
    Except PuzError (StringData × List Nat) :=
  match read_string_until_nul input with
  | .error e => .error e
  | .ok (title, r1) =>
  match read_string_until_nul r1 with
  | .error e => .error e
  | .ok (author, r2) =>
  match read_string_until_nul r2 with
  | .error e => .error e
  | .ok (copyright, r3) =>
  match readClues num_clues 0 num_clues r3 with
  | .error e => .error e
  | .ok (clues, r4) =>
  match read_string_until_nul r4 with
  | .error e => .error e
  | .ok (notes, r5) =>
  if clues.length ≠ num_clues then .error (.InvalidClueCount num_clues clues.length)
  else .ok ({ title := title, author := author, copyright := copyright,
              notes := notes, clues := clues }, r5)

/-- ASCII bytes of the `"GRBS"` tag. -/
def GRBS_tag : List Nat := [71, 82, 66, 83]

/-- ASCII bytes of the `"RTBL"` tag. -/
def RTBL_tag : List Nat := [82, 84, 66, 76]

/-- ASCII bytes of the `"GEXT"` tag. -/
def GEXT_tag : List Nat := [71, 69, 88, 84]

/-- Rust `data.windows(pat.len()).position(|w| w == pat)`: index of the first
occurrence of `pat` as a contiguous subslice. -/
def findWindow (pat : List Nat) : List Nat → Option Nat
  | [] => none
  | a :: rest =>
    if pat.length ≤ (a :: rest).length ∧ (a :: rest).take pat.length = pat then some 0
    else
      match findWindow pat rest with
      | some i => some (i + 1)
      | none => none

/-- `io.rs` `find_section`: locate a 4-byte tag, read the 2-byte little-endian
payload length after it, skip the 2-byte checksum, and return the payload if
it fits in the buffer; out-of-bounds reads make the section absent, never an
error. -/
def find_section (data : List Nat) (tag : List Nat) : Except PuzError (Option (List Nat)) :=
  match findWindow tag data with
  | none => .ok none
  | some index =>
    if index + tag.length + 2 ≤ data.length then
      if index + tag.length + 4 +
          (data.getD (index + tag.length) 0 + 256 * data.getD (index + tag.length + 1) 0) ≤
          data.length then
        .ok (some ((data.drop (index + tag.length + 4)).take
          (data.getD (index + tag.length) 0 + 256 * data.getD (index + tag.length + 1) 0)))
      else .ok none
    else .ok none

/-- Abstracts the `Display` rendering of `PuzError` (`error.rs`): it only ever
feeds the text of warning reasons, never control flow. -/
def errDescription : PuzError → String
  | .InvalidMagic _ => "invalid magic"
  | .InvalidDimensions _ _ => "invalid dimensions"
  | .InvalidClueCount _ _ => "invalid clue count"
  | .SectionSizeMismatch _ _ _ => "section size mismatch"
  | .InvalidGrid _ => "invalid grid"
  | .InvalidClues _ => "invalid clues"
  | .IoError => "io error"

/-- Rust `str::parse::<u8>` on RTBL keys: decimal digits valuing at most 255. -/
def parseU8? (s : String) : Option Nat :=
  match s.toNat? with
  | some n => if n ≤ 255 then some n else none
  | none => none

/-- One `key:value` entry of the RTBL table (`extensions.rs` `parse_rebus`):
empty entries, entries without a colon and non-numeric keys are dropped. -/
def rtblInsert (table : List (Nat × String)) (entry : String) : List (Nat × String) :=
  if entry.trim = "" then table
  else
    match entry.splitOn ":" with
    | [] => table
    | [_] => table
    | keyStr :: rest =>
      match parseU8? keyStr.trim with
      | some key => insertAssoc table key (String.intercalate ":" rest).trim
      | none => table

/-- `extensions.rs` `parse_rebus`: the GRBS byte grid reshaped row-wise plus
the RTBL key table parsed from semicolon-separated entries. -/
def parse_rebus (grbs_data rtbl_data : List Nat) (width height : Nat) :
    Except PuzError Rebus :=
  if grbs_data.length ≠ width * height then
    .error (.SectionSizeMismatch "GRBS" (width * height) grbs_data.length)
  else
    match decode_puz_string rtbl_data with
    | .error e => .error e
    | .ok rtbl_str =>
      .ok { grid := chunkList width grbs_data,
            table := (rtbl_str.splitOn ";").foldl rtblInsert [] }

/-- The boolean grid derived from one GEXT bit: byte `i` of the payload fills
row `i / width`, column `i % width`, which for a payload of exactly
`width*height` bytes is the row-major cell `(r, c) ↦ byte (r*width + c)`. -/
def bitGrid (mask : Nat) (data : List Nat) (width height : Nat) : List (List Bool) :=
  (List.range height).map
    (fun r => (List.range width).map (fun c => data.getD (r * width + c) 0 &&& mask != 0))

/-- `extensions.rs` `parse_gext`: a correctly sized payload yields the circle
grid (bit 0x80) and the given grid (bit 0x40), each `some` exactly when some
byte set the corresponding bit. -/
def parse_gext (data : List Nat) (width height : Nat) :
    Except PuzError (Option (List (List Bool)) × Option (List (List Bool))) :=
  if data.length ≠ width * height then
    .error (.SectionSizeMismatch "GEXT" (width * height) data.length)
  else
    .ok ((if data.any (fun b => b &&& 128 != 0) then some (bitGrid 128 data width height)
          else none),
         (if data.any (fun b => b &&& 64 != 0) then some (bitGrid 64 data width height)
          else none))

/-- The GRBS arm of the extension loop (`extensions.rs`
`parse_extensions_with_recovery`): a present, correctly sized GRBS payload
needs a present RTBL payload and a successful `parse_rebus`; every failure
becomes a `SkippedExtension` warning with the rebus omitted. -/
def grbsStep (data : List Nat) (width height : Nat) :
    Option Rebus × List PuzWarning :=
  match find_section data GRBS_tag with
  | .ok (some section_data) =>
    if section_data.length ≠ width * height then
      (none, [.SkippedExtension "GRBS" ("Size mismatch: expected " ++
        toString (width * height) ++ " bytes, got " ++ toString section_data.length)])
    else
      match find_section data RTBL_tag with
      | .ok (some rtbl_data) =>
        match parse_rebus section_data rtbl_data width height with
        | .ok parsed_rebus => (some parsed_rebus, [])
        | .error e => (none, [.SkippedExtension "GRBS/RTBL"
            ("Failed to parse rebus data: " ++ errDescription e)])
      | .ok none => (none, [.SkippedExtension "GRBS"
          "RTBL section not found - rebus requires both GRBS and RTBL"])
      | .error e => (none, [.SkippedExtension "GRBS"
          ("Failed to read RTBL section: " ++ errDescription e)])
  | .ok none => (none, [])
  | .error e => (none, [.SkippedExtension "GRBS"
      ("Failed to read section: " ++ errDescription e)])

/-- The RTBL arm of the extension loop: handled with GRBS; only a read error
(impossible for `find_section`) would warn. -/
def rtblStep (data : List Nat) : List PuzWarning :=
  match find_section data RTBL_tag with
  | .ok _ => []
  | .error e => [.SkippedExtension "RTBL" ("Failed to read section: " ++ errDescription e)]

/-- The GEXT arm of the extension loop: size-check then `parse_gext`, with
failures downgraded to `SkippedExtension` warnings. -/
def gextStep (data : List Nat) (width height : Nat) :
    Option (List (List Bool)) × Option (List (List Bool)) × List PuzWarning :=
  match find_section data GEXT_tag with
  | .ok (some section_data) =>
    if section_data.length ≠ width * height then
      (none, none, [.SkippedExtension "GEXT" ("Size mismatch: expected " ++
        toString (width * height) ++ " bytes, got " ++ toString section_data.length)])
    else
      match parse_gext section_data width height with
      | .ok (parsed_circles, parsed_given) => (parsed_circles, parsed_given, [])
      | .error e => (none, none, [.SkippedExtension "GEXT"
          ("Failed to parse GEXT data: " ++ errDescription e)])
  | .ok none => (none, none, [])
  | .error e => (none, none, [.SkippedExtension "GEXT"
      ("Failed to read section: " ++ errDescription e)])

/-- `extensions.rs` `parse_extensions_with_recovery`: the loop over
GRBS, RTBL, GEXT in that order, accumulating warnings, never fatal. -/
def parse_extensions_with_recovery (data : List Nat) (width height : Nat) :
    Except PuzError (Extensions × List PuzWarning) :=
  .ok ({ rebus := (grbsStep data width height).1,
         circles := (gextStep data width height).1,
         given := (gextStep data width height).2.1 },
       (grbsStep data width height).2 ++ rtblStep data ++ (gextStep data width height).2.2)

/-- `mod.rs` `parse_puzzle`: the whole decode pipeline; `read_remaining_data`
is the identity on the unread tail of the stream. -/
def parse_puzzle (input : List Nat) : Except PuzError (ParseResult Puzzle) :=
  match validate_file_magic input with
  | .error e => .error e
  | .ok r0 =>
  match parse_header r0 with
  | .error e => .error e
  | .ok (header, r1) =>
  match parse_grids r1 header.width header.height with
  | .error e => .error e
  | .ok (grids, r2) =>
  match parse_strings r2 header.num_clues with
  | .error e => .error e
  | .ok (strings, r3) =>
  match parse_extensions_with_recovery r3 header.width header.height with
  | .error e => .error e
  | .ok (extensions, ext_warnings) =>
  match process_clues grids.blank strings.clues with
  | .error e => .error e
  | .ok clues =>
  let puzzle : Puzzle :=
    { info := { title := strings.title, author := strings.author,
                copyright := strings.copyright, notes := strings.notes,
                width := header.width, height := header.height,
                version := header.version, is_scrambled := header.is_scrambled },
      grid := grids, clues := clues, extensions := extensions }
  match validate_puzzle puzzle with
  | .error e => .error e
  | .ok _ =>
    .ok { result := puzzle,
          warnings := (if header.is_scrambled
              then [PuzWarning.ScrambledPuzzle header.version] else []) ++ ext_warnings }

/-- Whether a validation outcome is an `InvalidGrid` failure. -/
def isInvalidGridError : Except PuzError Unit → Bool
  | .error (.InvalidGrid _) => true
  | _ => false

/-- Whether a clue-derivation outcome is an `InvalidClues` failure. -/
def isInvalidCluesError : Except PuzError Clues → Bool
  | .error (.InvalidClues _) => true
  | _ => false

/-- Whether a warning is a `SkippedExtension` naming the GRBS section. -/
def isGrbsSkip : PuzWarning → Bool
  | .SkippedExtension s _ => s == "GRBS"
  | _ => false

/-- The first `n` NUL-terminated byte runs of a stream, in file order. -/
def nulChunks : Nat → List Nat → List (List Nat)
  | 0, _ => []
  | n + 1, l =>
    l.takeWhile (fun b => b != 0) ::
      nulChunks n ((l.dropWhile (fun b => b != 0)).tail)

/-- A complete minimal `.puz` file: checksum, magic, header (2x1 grid, one
clue, version "1.3"), solution "AB", blank "--", strings "T","A","C", clue
"c", empty notes, no extension tail. -/
def demoFile : List Nat :=
  [0, 0] ++ acrossDownMagic ++ List.replicate 10 0 ++ [49, 46, 51, 0] ++
  List.replicate 16 0 ++ [2, 1] ++ [1, 0] ++ [0, 0] ++ [0, 0] ++
  [65, 66] ++ [45, 45] ++ [84, 0] ++ [65, 0] ++ [67, 0] ++ [99, 0] ++ [0]

/-- The value `parse_puzzle` produces on `demoFile`. -/
def demoParse : ParseResult Puzzle :=
  { result := { info := { title := "T", author := "A", copyright := "C", notes := "",
                          width := 2, height := 1, version := "1.3",
                          is_scrambled := false },
                grid := { blank := [['-', '-']], solution := [['A', 'B']] },
                clues := { across := [(1, "c")], down := [] },
                extensions := { rebus := none, circles := none, given := none } },
    warnings := [] }

/-- `demoFile` with an extension tail holding a correctly sized GRBS section
(payload `[1, 1]` for the 2x1 grid) and no RTBL section. -/
def demoFileGrbs : List Nat := demoFile ++ GRBS_tag ++ [2, 0] ++ [0, 0] ++ [1, 1]

/-- Spec-side reading of "starts an across entry" for cell `(r, c)`. -/
def StartsAcross (grid : List (List Char)) (r c : Nat) : Prop :=
  cellAt grid r c = some FREE_SQUARE ∧
  cellAt grid r (c + 1) = some FREE_SQUARE ∧
  (c = 0 ∨ cellAt grid r (c - 1) = some TAKEN_SQUARE)

/-- Spec-side reading of "starts a down entry" for cell `(r, c)`. -/
def StartsDown (grid : List (List Char)) (r c : Nat) : Prop :=
  cellAt grid r c = some FREE_SQUARE ∧
  cellAt grid (r + 1) c = some FREE_SQUARE ∧
  (r = 0 ∨ cellAt grid (r - 1) c = some TAKEN_SQUARE)

end Puz

namespace Puz

/-- C1: a cell starts an across entry iff it is free, its right neighbour in
the same row exists and is free, and it is at column 0 or its left neighbour
is blocked; and it starts a down entry iff it is free, the cell below exists
and is free, and it is at row 0 or the cell above is blocked.  Proved for
every grid (in particular every rectangular one). -/
theorem cell_needs_clue_iff (grid : List (List Char)) (r c : Nat) :
    (cell_needs_across_clue grid r c = true ↔ StartsAcross grid r c) ∧
    (cell_needs_down_clue grid r c = true ↔ StartsDown grid r c) := by
  constructor
  · unfold cell_needs_across_clue StartsAcross cellAt
    cases hrow : grid[r]? with
    | none => simp
    | some row_str =>
      simp only [Option.bind_some]
      cases hc : row_str[c]? with
      | none => simp [hc]
      | some this_char =>
        by_cases hfree : this_char = FREE_SQUARE
        · cases hn : row_str[c + 1]? with
          | none => simp [hfree, hc, hn]
          | some next_char =>
            by_cases hnfree : next_char = FREE_SQUARE
            · simp [hfree, hnfree, hc, hn, beq_iff_eq]
            · simp [hfree, hnfree, hc, hn]
        · simp [hfree, hc]
  · unfold cell_needs_down_clue StartsDown cellAt
    cases hrow : grid[r]? with
    | none => simp
    | some row_str =>
      simp only [Option.bind_some]
      cases hc : row_str[c]? with
      | none => simp [hc]
      | some this_char =>
        by_cases hfree : this_char = FREE_SQUARE
        · cases hnr : grid[r + 1]? with
          | none => simp [hfree, hc, hnr]
          | some next_row =>
            cases hn : next_row[c]? with
            | none => simp [hfree, hc, hnr, hn]
            | some next_char =>
              by_cases hnfree : next_char = FREE_SQUARE
              · simp [hfree, hnfree, hc, hnr, hn, beq_iff_eq]
              · simp [hfree, hnfree, hc, hnr, hn]
        · simp [hfree, hc]

end Puz

namespace Puz

/-- `decode_puz_string` always succeeds, with the value `puzDecode`. -/
theorem decode_puz_string_eq_puzDecode (bytes : List Nat) :
    decode_puz_string bytes = .ok (puzDecode bytes) := by
  unfold decode_puz_string puzDecode
  cases h : utf8Decode? bytes <;> simp

/-- C4: the text decoder is total (every byte list yields `.ok`); on valid
UTF-8 input it returns exactly that UTF-8 decoding; and on a non-empty input
whose bytes all lie in 128-159 it succeeds with a non-empty string. -/
theorem decode_puz_string_total_spec :
    (∀ bytes : List Nat, ∃ s, decode_puz_string bytes = .ok s) ∧
    (∀ (bytes : List Nat) (cs : List Char),
      utf8Decode? bytes = some cs → decode_puz_string bytes = .ok (String.mk cs)) ∧
    (∀ bytes : List Nat, bytes ≠ [] → (∀ b ∈ bytes, 128 ≤ b ∧ b ≤ 159) →
      decode_puz_string bytes = .ok (puzDecode bytes) ∧ puzDecode bytes ≠ "") := by
  refine ⟨fun bytes => ⟨puzDecode bytes, decode_puz_string_eq_puzDecode bytes⟩, ?_, ?_⟩
  · intro bytes cs h
    simp [decode_puz_string, h]
  · intro bytes hne hb
    refine ⟨decode_puz_string_eq_puzDecode bytes, ?_⟩
    match bytes, hne with
    | b :: rest, _ =>
      have hbb := hb b (List.mem_cons_self b rest)
      have hnone : utf8Decode? (b :: rest) = none := by
        have h4 : utf8Need b = 4 := by
          unfold utf8Need
          have h1 : ¬ b ≤ 0x7F := by omega
          have h2 : b ≤ 0xC1 := by omega
          rw [if_neg h1, if_pos h2]
        show utf8DecodeAux (b :: rest).length (b :: rest) = none
        simp only [List.length_cons]
        rw [utf8DecodeAux, if_pos h4]
      have hmk : puzDecode (b :: rest) =
          String.mk (windows_1252_to_char b :: rest.map windows_1252_to_char) := by
        unfold puzDecode
        rw [hnone]
        rfl
      intro hcontra
      rw [hmk] at hcontra
      exact List.cons_ne_nil _ _ (congrArg String.data hcontra)

/-- Concrete instances of `decode_puz_string_total_spec`: ASCII "Hi" decodes
as-is, and the single Windows-1252 byte 147 (left double quote) decodes to a
non-empty string. -/
theorem decode_puz_string_total_spec_witness :
    decode_puz_string [72, 105] = .ok (String.mk ['H', 'i']) ∧
    (decode_puz_string [147] = .ok (puzDecode [147]) ∧ puzDecode [147] ≠ "") :=
  ⟨decode_puz_string_total_spec.2.1 [72, 105] ['H', 'i'] (by decide),
   decode_puz_string_total_spec.2.2 [147] (by decide) (by decide)⟩

end Puz

namespace Puz

/-- A successful `vgsCells` run certifies, for every cell pair it scanned,
agreeing blocked status and (for non-blocked cells) an allowed solution
character. -/
theorem vgsCells_ok (i : Nat) (pairs : List (Char × Char)) :
    ∀ (j : Nat), vgsCells i j pairs = .ok () →
      ∀ p ∈ pairs, ((p.1 = TAKEN_SQUARE) ↔ (p.2 = TAKEN_SQUARE)) ∧
        (p.1 ≠ TAKEN_SQUARE → is_valid_puzzle_char p.2 = true) := by
  induction pairs with
  | nil => intro j _ p hp; cases hp
  | cons hd tl ih =>
    obtain ⟨bc, sc⟩ := hd
    intro j h p hp
    rw [vgsCells] at h
    split at h
    · simp at h
    · split at h
      · simp at h
      · rename_i h1 h2
        rcases List.mem_cons.1 hp with hpe | hpt
        · subst hpe
          simp only [bne_iff_ne, ne_eq, Decidable.not_not, beq_iff_eq] at h1
          simp only [Bool.and_eq_true, Bool.not_eq_true', beq_eq_false_iff_ne, ne_eq,
            not_and, Bool.not_eq_false] at h2
          constructor
          · constructor
            · intro hb; exact (beq_iff_eq.1 (h1 ▸ (beq_iff_eq.2 hb)))
            · intro hs; exact (beq_iff_eq.1 (h1.symm ▸ (beq_iff_eq.2 hs)))
          · intro hb; exact h2 hb
        · exact ih (j + 1) h p hpt

/-- A successful `vgsRows` run certifies equal row lengths and the cell-pair
properties for every row pair it scanned. -/
theorem vgsRows_ok (rows : List (List Char × List Char)) :
    ∀ (i : Nat), vgsRows i rows = .ok () →
      ∀ rp ∈ rows, rp.1.length = rp.2.length ∧
        (∀ p ∈ rp.1.zip rp.2, ((p.1 = TAKEN_SQUARE) ↔ (p.2 = TAKEN_SQUARE)) ∧
          (p.1 ≠ TAKEN_SQUARE → is_valid_puzzle_char p.2 = true)) := by
  induction rows with
  | nil => intro i _ rp hrp; cases hrp
  | cons hd tl ih =>
    obtain ⟨br, sr⟩ := hd
    intro i h rp hrp
    rw [vgsRows] at h
    split at h
    · simp at h
    · rename_i hlen
      split at h
      · simp at h
      · rename_i u hcells
        rcases List.mem_cons.1 hrp with hre | hrt
        · subst hre
          refine ⟨not_ne_iff.1 hlen, ?_⟩
          obtain ⟨⟩ := u
          exact vgsCells_ok i (br.zip sr) 0 hcells
        · exact ih (i + 1) h rp hrt

/-- A successful `validate_grid_structure` certifies: equally many rows,
pairwise equal row lengths, agreeing blocked cells, and allowed characters in
non-blocked solution cells. -/
theorem validate_grid_structure_ok (blank solution : List (List Char))
    (h : validate_grid_structure blank solution = .ok ()) :
    blank.length = solution.length ∧
    (∀ k, (blank.getD k []).length = (solution.getD k []).length) ∧
    (∀ r c bc sc, cellAt blank r c = some bc → cellAt solution r c = some sc →
      ((bc = TAKEN_SQUARE ↔ sc = TAKEN_SQUARE) ∧
        (bc ≠ TAKEN_SQUARE → is_valid_puzzle_char sc = true))) := by
  rw [validate_grid_structure] at h
  split at h
  · simp at h
  · rename_i hlen
    have hlen' : blank.length = solution.length := by
      by_contra hc; exact hlen hc
    have hrows := vgsRows_ok (blank.zip solution) 0 h
    have hrowlen : ∀ k, (blank.getD k []).length = (solution.getD k []).length := by
      intro k
      by_cases hk : k < blank.length
      · have hk2 : k < solution.length := by omega
        have hkz : k < (blank.zip solution).length := by
          rw [List.length_zip]; omega
        have hmem : (blank[k], solution[k]) ∈ blank.zip solution := by
          have hget : (blank.zip solution)[k] = (blank[k], solution[k]) :=
            List.getElem_zip
          rw [← hget]
          exact List.getElem_mem hkz
        have := (hrows _ hmem).1
        rwa [List.getD_eq_getElem _ _ hk, List.getD_eq_getElem _ _ hk2]
      · have hk2 : ¬ k < solution.length := by omega
        rw [List.getD_eq_default _ _ (by omega), List.getD_eq_default _ _ (by omega)]
    refine ⟨hlen', hrowlen, ?_⟩
    intro r c bc sc hb hs
    unfold cellAt at hb hs
    cases hbr : blank[r]? with
    | none => rw [hbr] at hb; simp at hb
    | some br =>
      cases hsr : solution[r]? with
      | none => rw [hsr] at hs; simp at hs
      | some sr =>
        rw [hbr] at hb; rw [hsr] at hs
        simp only [Option.some_bind] at hb hs
        have hr : r < blank.length := by
          by_contra hc
          rw [List.getElem?_eq_none (by omega)] at hbr
          cases hbr
        have hbr' : blank[r] = br := by
          have := List.getElem?_eq_getElem hr
          rw [this] at hbr; exact (Option.some_inj.1 hbr)
        have hr2 : r < solution.length := by omega
        have hsr' : solution[r] = sr := by
          have := List.getElem?_eq_getElem hr2
          rw [this] at hsr; exact (Option.some_inj.1 hsr)
        have hrz : r < (blank.zip solution).length := by
          rw [List.length_zip]; omega
        have hmem : (br, sr) ∈ blank.zip solution := by
          have hget : (blank.zip solution)[r] = (blank[r], solution[r]) :=
            List.getElem_zip
          rw [hbr', hsr'] at hget
          rw [← hget]
          exact List.getElem_mem hrz
        have hrow := hrows _ hmem
        have hc : c < br.length := by
          by_contra hc
          rw [List.getElem?_eq_none (by omega)] at hb
          cases hb
        have hbsr : br.length = sr.length := hrow.1
        have hc2 : c < sr.length := by omega
        have hbcell : br[c] = bc := by
          have := List.getElem?_eq_getElem hc
          rw [this] at hb; exact (Option.some_inj.1 hb)
        have hscell : sr[c] = sc := by
          have := List.getElem?_eq_getElem hc2
          rw [this] at hs; exact (Option.some_inj.1 hs)
        have hcz : c < (br.zip sr).length := by
          rw [List.length_zip]; omega
        have hcmem : (bc, sc) ∈ br.zip sr := by
          have hget : (br.zip sr)[c] = (br[c], sr[c]) := List.getElem_zip
          rw [hbcell, hscell] at hget
          rw [← hget]
          exact List.getElem_mem hcz
        exact hrow.2 _ hcmem

end Puz

namespace Puz

/-- Every failure of the cell loop of `validate_grid_structure` is an
`InvalidGrid` error. -/
theorem vgsCells_error_kind (i : Nat) (pairs : List (Char × Char)) :
    ∀ (j : Nat) (e : PuzError), vgsCells i j pairs = .error e →
      ∃ s, e = .InvalidGrid s := by
  induction pairs with
  | nil => intro j e h; rw [vgsCells] at h; cases h
  | cons hd tl ih =>
    obtain ⟨bc, sc⟩ := hd
    intro j e h
    rw [vgsCells] at h
    split at h
    · exact ⟨_, (Except.error.inj h).symm⟩
    · split at h
      · exact ⟨_, (Except.error.inj h).symm⟩
      · exact ih (j + 1) e h

/-- Every failure of the row loop of `validate_grid_structure` is an
`InvalidGrid` error. -/
theorem vgsRows_error_kind (rows : List (List Char × List Char)) :
    ∀ (i : Nat) (e : PuzError), vgsRows i rows = .error e →
      ∃ s, e = .InvalidGrid s := by
  induction rows with
  | nil => intro i e h; rw [vgsRows] at h; cases h
  | cons hd tl ih =>
    obtain ⟨br, sr⟩ := hd
    intro i e h
    rw [vgsRows] at h
    split at h
    · exact ⟨_, (Except.error.inj h).symm⟩
    · cases hcells : vgsCells i 0 (br.zip sr) with
      | error e2 =>
        rw [hcells] at h
        obtain rfl : e2 = e := Except.error.inj h
        exact vgsCells_error_kind i (br.zip sr) 0 _ hcells
      | ok u =>
        obtain ⟨⟩ := u
        rw [hcells] at h
        exact ih (i + 1) e h

/-- Every failure of `validate_grid_structure` is an `InvalidGrid` error. -/
theorem validate_grid_structure_error_kind (blank solution : List (List Char))
    (e : PuzError) (h : validate_grid_structure blank solution = .error e) :
    ∃ s, e = .InvalidGrid s := by
  rw [validate_grid_structure] at h
  split at h
  · exact ⟨_, (Except.error.inj h).symm⟩
  · exact vgsRows_error_kind (blank.zip solution) 0 e h

/-- C3 counterexample: `parse_grids` itself does not perform the character
whitelist check.  The 4-byte input below provides the full `2*width*height`
bytes for a 2x1 grid whose non-blocked solution cell holds `'@'` — not ASCII
alphanumeric and not whitelisted — yet `parse_grids` succeeds instead of
failing with `InvalidGrid`. -/
theorem parse_grids_accepts_invalid_char_counterexample :
    ([65, 64, 45, 45] : List Nat).length = 2 * (2 * 1) ∧
    parse_grids [65, 64, 45, 45] 2 1 =
      .ok ({ blank := [['-', '-']], solution := [['A', '@']] }, []) ∧
    is_valid_puzzle_char '@' = false ∧
    cellAt [['-', '-']] 0 1 = some FREE_SQUARE ∧
    cellAt [['A', '@']] 0 1 = some '@' :=
  ⟨rfl, rfl, by decide, by decide, by decide⟩

/-- C3 (amended): the whitelist check on non-blocked solution cells is
enforced by the validation stage rather than by `parse_grids`:
`validate_grid_structure` fails with an `InvalidGrid` error whenever some
position holds a non-blocked blank cell and a solution character that is not
ASCII alphanumeric and not one of the whitelisted punctuation characters. -/
theorem validate_grid_structure_rejects_invalid_char
    (blank solution : List (List Char)) (r c : Nat) (bc sc : Char)
    (hb : cellAt blank r c = some bc) (hs : cellAt solution r c = some sc)
    (hbc : bc ≠ TAKEN_SQUARE) (hsc : is_valid_puzzle_char sc = false) :
    isInvalidGridError (validate_grid_structure blank solution) = true := by
  cases hres : validate_grid_structure blank solution with
  | ok u =>
    obtain ⟨⟩ := u
    have hspec := (validate_grid_structure_ok blank solution hres).2.2 r c bc sc hb hs
    rw [hspec.2 hbc] at hsc
    simp at hsc
  | error e =>
    obtain ⟨s, rfl⟩ := validate_grid_structure_error_kind blank solution e hres
    rfl

/-- Concrete instance of `validate_grid_structure_rejects_invalid_char` at
the grids of the C3 counterexample: the validator does reject them. -/
theorem validate_grid_structure_rejects_invalid_char_witness :
    isInvalidGridError (validate_grid_structure [['-', '-']] [['A', '@']]) = true :=
  validate_grid_structure_rejects_invalid_char [['-', '-']] [['A', '@']] 0 1 '-' '@'
    (by decide) (by decide) (by decide) (by decide)

end Puz

namespace Puz

/-- C6: on a payload of exactly `width*height` bytes, `parse_gext` succeeds;
cell `(i / width, i % width)` of the circle grid is true exactly when bit
0x80 of byte `i` is set and of the given grid exactly when bit 0x40 is set
(so a byte with 0x80 set and 0x40 clear is circled-only, and both bits set
marks both); and each returned grid is `some` precisely when some byte sets
its bit, i.e. when some cell is true. -/
theorem parse_gext_bits (data : List Nat) (w h : Nat)
    (hlen : data.length = w * h) (hw : 0 < w) :
    parse_gext data w h =
      .ok ((if data.any (fun b => b &&& 128 != 0) then some (bitGrid 128 data w h)
            else none),
           (if data.any (fun b => b &&& 64 != 0) then some (bitGrid 64 data w h)
            else none)) ∧
    (∀ i, i < w * h →
      cellAt (bitGrid 128 data w h) (i / w) (i % w) = some (data.getD i 0 &&& 128 != 0) ∧
      cellAt (bitGrid 64 data w h) (i / w) (i % w) = some (data.getD i 0 &&& 64 != 0)) ∧
    (∀ mask : Nat, (data.any (fun b => b &&& mask != 0) = true ↔
      ∃ i, i < w * h ∧ (data.getD i 0 &&& mask != 0) = true)) := by
  refine ⟨?_, ?_, ?_⟩
  · rw [parse_gext, if_neg (by omega)]
  · intro i hi
    have hdiv : i / w < h := by
      rw [Nat.div_lt_iff_lt_mul hw]
      have hcomm : w * h = h * w := Nat.mul_comm w h
      omega
    have hmod : i % w < w := Nat.mod_lt _ hw
    have hidx : i / w * w + i % w = i := by
      have hdm := Nat.div_add_mod i w
      rw [Nat.mul_comm (i / w) w]
      exact hdm
    constructor <;>
    · unfold cellAt bitGrid
      rw [List.getElem?_map, List.getElem?_range hdiv]
      simp only [Option.map_some', Option.some_bind]
      rw [List.getElem?_map, List.getElem?_range hmod]
      simp only [Option.map_some']
      rw [hidx]
  · intro mask
    rw [List.any_eq_true]
    constructor
    · rintro ⟨b, hb, hpb⟩
      obtain ⟨i, hilt, hbi⟩ := List.mem_iff_getElem.1 hb
      refine ⟨i, by omega, ?_⟩
      rw [List.getD_eq_getElem _ _ (by omega), hbi]
      exact hpb
    · rintro ⟨i, hilt, hbit⟩
      refine ⟨data.getD i 0, ?_, hbit⟩
      rw [List.getD_eq_getElem _ _ (by omega)]
      exact List.getElem_mem _

/-- Concrete instance of `parse_gext_bits` on the 2x1 payload `[0xC0, 0x40]`:
byte 0 has both bits, byte 1 is given-only. -/
theorem parse_gext_bits_witness :
    parse_gext [192, 64] 2 1 =
      .ok ((if ([192, 64] : List Nat).any (fun b => b &&& 128 != 0)
            then some (bitGrid 128 [192, 64] 2 1) else none),
           (if ([192, 64] : List Nat).any (fun b => b &&& 64 != 0)
            then some (bitGrid 64 [192, 64] 2 1) else none)) ∧
    cellAt (bitGrid 128 [192, 64] 2 1) (1 / 2) (1 % 2) =
      some (([192, 64] : List Nat).getD 1 0 &&& 128 != 0) := by
  have hspec := parse_gext_bits [192, 64] 2 1 (by decide) (by decide)
  exact ⟨hspec.1, (hspec.2.1 1 (by decide)).1⟩

end Puz

namespace Puz

/-- The GEXT arm of the extension loop only ever warns about the GEXT
section, never about GRBS. -/
theorem gextStep_warnings_not_grbs (data : List Nat) (w h : Nat) :
    ((gextStep data w h).2.2).filter isGrbsSkip = [] := by
  unfold gextStep
  cases hfind : find_section data GEXT_tag with
  | error e => rfl
  | ok o =>
    cases o with
    | none => rfl
    | some sd =>
      dsimp only
      split
      · rfl
      · cases hg : parse_gext sd w h with
        | ok p => obtain ⟨pc, pg⟩ := p; rfl
        | error e => rfl

/-- C7: when the extension tail holds a GRBS section whose payload has
exactly `width*height` bytes but no RTBL section, the extension stage still
succeeds (it cannot abort the pipeline), leaves the rebus `none`, and records
exactly one `SkippedExtension` warning for the GRBS section. -/
theorem grbs_without_rtbl (data : List Nat) (w h : Nat) (payload : List Nat)
    (hg : find_section data GRBS_tag = .ok (some payload))
    (hsize : payload.length = w * h)
    (hr : find_section data RTBL_tag = .ok none) :
    match parse_extensions_with_recovery data w h with
    | .ok (ext, warns) => ext.rebus = none ∧ (warns.filter isGrbsSkip).length = 1
    | .error _ => False := by
  have hgr : grbsStep data w h =
      (none, [PuzWarning.SkippedExtension "GRBS"
        "RTBL section not found - rebus requires both GRBS and RTBL"]) := by
    unfold grbsStep
    rw [hg]
    dsimp only
    rw [if_neg (by omega), hr]
  have hgx := gextStep_warnings_not_grbs data w h
  unfold parse_extensions_with_recovery
  rw [hgr]
  dsimp only
  refine ⟨rfl, ?_⟩
  rw [List.filter_append, List.filter_append, hgx]
  unfold rtblStep
  rw [hr]
  simp [isGrbsSkip]

/-- Concrete instance of `grbs_without_rtbl`: a tail holding only a
well-sized GRBS section for a 2x1 grid. -/
theorem grbs_without_rtbl_witness :
    (match parse_extensions_with_recovery [71, 82, 66, 83, 2, 0, 0, 0, 1, 1] 2 1 with
     | .ok (ext, warns) => ext.rebus = none ∧ (warns.filter isGrbsSkip).length = 1
     | .error _ => False) ∧
    parse_puzzle demoFileGrbs =
      .ok { result := demoParse.result,
            warnings := [.SkippedExtension "GRBS"
              "RTBL section not found - rebus requires both GRBS and RTBL"] } :=
  ⟨grbs_without_rtbl [71, 82, 66, 83, 2, 0, 0, 0, 1, 1] 2 1 [1, 1]
    (by decide) (by decide) (by decide), by decide⟩

end Puz

namespace Puz

/-- `read_exact` on a stream laid out as `a ++ b` and asked for exactly
`a.length` bytes returns `a` and leaves `b`. -/
theorem read_exact_append (a b : List Nat) : read_exact a.length (a ++ b) = .ok (a, b) := by
  unfold read_exact
  rw [if_pos (by simp)]
  rw [List.take_left, List.drop_left]

/-- C8 counterexample: an input of exactly 35 bytes whose width byte
(offset 30) and height byte (offset 31) are non-zero.  The claim promises a
parsed header, but `parse_header` reads a 38-byte header (10 skipped + 4
version + 16 skipped + 8 field bytes) and fails with an I/O error on this
input. -/
theorem parse_header_35_bytes_counterexample :
    (List.replicate 30 0 ++ [1, 1, 0, 0, 0]).length = 35 ∧
    (List.replicate 30 0 ++ [1, 1, 0, 0, 0]).getD 30 0 = 1 ∧
    (List.replicate 30 0 ++ [1, 1, 0, 0, 0]).getD 31 0 = 1 ∧
    parse_header (List.replicate 30 0 ++ [1, 1, 0, 0, 0]) = .error .IoError :=
  ⟨by decide, by decide, by decide, by decide⟩

/-- C8 (amended): the header after the magic spans 38 bytes, not 35.  Given
an input providing all 38 header bytes, `parse_header` fails with
`InvalidDimensions` carrying the read width and height iff the width byte or
the height byte is zero; otherwise it returns a header whose width, height,
clue count, bitmask (both little-endian) and scrambled flag (true iff the
scrambled tag is non-zero) are the fields read from the input. -/
theorem parse_header_spec (skip1 ver skip2 : List Nat)
    (w hgt c0 c1 b0 b1 s0 s1 : Nat) (rest : List Nat)
    (h1 : skip1.length = 10) (h2 : ver.length = 4) (h3 : skip2.length = 16) :
    (w = 0 ∨ hgt = 0 →
      parse_header (skip1 ++ (ver ++ (skip2 ++
          (w :: hgt :: c0 :: c1 :: b0 :: b1 :: s0 :: s1 :: rest)))) =
        .error (.InvalidDimensions w hgt)) ∧
    (w ≠ 0 → hgt ≠ 0 →
      parse_header (skip1 ++ (ver ++ (skip2 ++
          (w :: hgt :: c0 :: c1 :: b0 :: b1 :: s0 :: s1 :: rest)))) =
        .ok ({ width := w, height := hgt, num_clues := c0 + 256 * c1,
               version := trimTrailingNuls (puzDecode ver),
               bitmask := b0 + 256 * b1,
               is_scrambled := s0 + 256 * s1 != 0 }, rest)) := by
  have e1 : read_exact 10 (skip1 ++ (ver ++ (skip2 ++
      (w :: hgt :: c0 :: c1 :: b0 :: b1 :: s0 :: s1 :: rest)))) =
      .ok (skip1, ver ++ (skip2 ++ (w :: hgt :: c0 :: c1 :: b0 :: b1 :: s0 :: s1 :: rest))) := by
    rw [← h1]
    exact read_exact_append skip1 _
  have e2 : read_exact 4 (ver ++ (skip2 ++
      (w :: hgt :: c0 :: c1 :: b0 :: b1 :: s0 :: s1 :: rest))) =
      .ok (ver, skip2 ++ (w :: hgt :: c0 :: c1 :: b0 :: b1 :: s0 :: s1 :: rest)) := by
    rw [← h2]
    exact read_exact_append ver _
  have e3 : read_exact 16 (skip2 ++ (w :: hgt :: c0 :: c1 :: b0 :: b1 :: s0 :: s1 :: rest)) =
      .ok (skip2, w :: hgt :: c0 :: c1 :: b0 :: b1 :: s0 :: s1 :: rest) := by
    rw [← h3]
    exact read_exact_append skip2 _
  constructor
  · intro hz
    simp only [parse_header, e1, e2, e3, decode_puz_string_eq_puzDecode, read_u8, read_u16]
    rw [if_pos hz]
  · intro hw hh
    simp only [parse_header, e1, e2, e3, decode_puz_string_eq_puzDecode, read_u8, read_u16]
    rw [if_neg (by simp [hw, hh])]

/-- Concrete instance of `parse_header_spec`: version "1.3", width 2,
height 1, one clue, scrambled tag 4. -/
theorem parse_header_spec_witness :
    parse_header (List.replicate 10 0 ++ ([49, 46, 51, 0] ++ (List.replicate 16 0 ++
        (2 :: 1 :: 1 :: 0 :: 0 :: 0 :: 4 :: 0 :: [9, 9])))) =
      .ok ({ width := 2, height := 1, num_clues := 1 + 256 * 0,
             version := trimTrailingNuls (puzDecode [49, 46, 51, 0]),
             bitmask := 0 + 256 * 0,
             is_scrambled := 4 + 256 * 0 != 0 }, [9, 9]) :=
  (parse_header_spec (List.replicate 10 0) [49, 46, 51, 0] (List.replicate 16 0)
    2 1 1 0 0 0 4 0 [9, 9] (by decide) (by decide) (by decide)).2
    (by decide) (by decide)

end Puz

namespace Puz

/-- `HashMap::insert` with a key fresh for the map appends a new entry. -/
theorem insertAssoc_fresh (m : List (Nat × String)) (k : Nat) (v : String)
    (h : ∀ p ∈ m, p.1 < k) : insertAssoc m k v = m ++ [(k, v)] := by
  unfold insertAssoc
  rw [if_neg]
  intro hc
  rw [List.any_eq_true] at hc
  obtain ⟨p, hp, hpk⟩ := hc
  have := h p hp
  rw [beq_iff_eq] at hpk
  omega

/-- One scan step of `process_clues`: provided every key already in the maps
is below the running clue number, the step succeeds iff the flat clue list
still covers the cell's one or two slots, consuming exactly that many
strings, growing each map by its slot, and preserving the key bound; with too
few strings left it fails with `InvalidClues`. -/
theorem processCell_spec (g : List (List Char)) (cs : List String) (r c : Nat)
    (st : ClueScanState)
    (ha : ∀ p ∈ st.across, p.1 < st.clue_number)
    (hd : ∀ p ∈ st.down, p.1 < st.clue_number) :
    (st.clue_index + ((if cell_needs_across_clue g r c then 1 else 0) +
        (if cell_needs_down_clue g r c then 1 else 0)) ≤ cs.length →
      ∃ st', processCell g cs r c st = .ok st' ∧
        st'.clue_index = st.clue_index + ((if cell_needs_across_clue g r c then 1 else 0) +
          (if cell_needs_down_clue g r c then 1 else 0)) ∧
        st'.across.length = st.across.length + (if cell_needs_across_clue g r c then 1 else 0) ∧
        st'.down.length = st.down.length + (if cell_needs_down_clue g r c then 1 else 0) ∧
        (∀ p ∈ st'.across, p.1 < st'.clue_number) ∧
        (∀ p ∈ st'.down, p.1 < st'.clue_number)) ∧
    (st.clue_index ≤ cs.length →
      cs.length < st.clue_index + ((if cell_needs_across_clue g r c then 1 else 0) +
        (if cell_needs_down_clue g r c then 1 else 0)) →
      ∃ s, processCell g cs r c st = .error (.InvalidClues s)) := by
  by_cases hac : cell_needs_across_clue g r c = true <;>
    by_cases hdc : cell_needs_down_clue g r c = true
  · -- across and down
    simp only [hac, hdc, if_true]
    constructor
    · intro hle
      have hlt1 : st.clue_index < cs.length := by omega
      have hget1 : cs[st.clue_index]? = some cs[st.clue_index] := List.getElem?_eq_getElem hlt1
      have hlt2 : st.clue_index + 1 < cs.length := by omega
      have hget2 : cs[st.clue_index + 1]? = some cs[st.clue_index + 1] :=
        List.getElem?_eq_getElem hlt2
      unfold processCell
      simp only [hac, hdc, Bool.or_self, if_true, hget1]
      simp only [hget2]
      refine ⟨_, rfl, ?_, ?_, ?_, ?_, ?_⟩
      · simp
      · simp [insertAssoc_fresh st.across st.clue_number _ ha]
      · simp [insertAssoc_fresh st.down st.clue_number _ hd]
      · intro p hp
        simp only at hp
        rw [insertAssoc_fresh st.across st.clue_number _ ha] at hp
        rcases List.mem_append.1 hp with h1 | h2
        · have := ha p h1; simp; omega
        · simp at h2; simp [h2]
      · intro p hp
        simp only at hp
        rw [insertAssoc_fresh st.down st.clue_number _ hd] at hp
        rcases List.mem_append.1 hp with h1 | h2
        · have := hd p h1; simp; omega
        · simp at h2; simp [h2]
    · intro hidx hgt
      unfold processCell
      simp only [hac, hdc, Bool.or_self, if_true]
      by_cases hlt1 : st.clue_index < cs.length
      · have hget1 : cs[st.clue_index]? = some cs[st.clue_index] :=
          List.getElem?_eq_getElem hlt1
        have hget2 : cs[st.clue_index + 1]? = none := by
          rw [List.getElem?_eq_none]
          omega
        simp only [hget1, hget2]
        exact ⟨_, rfl⟩
      · have hget1 : cs[st.clue_index]? = none := by
          rw [List.getElem?_eq_none]
          omega
        simp only [hget1]
        exact ⟨_, rfl⟩
  · -- across only
    have hdc' : cell_needs_down_clue g r c = false := eq_false_of_ne_true hdc
    simp only [hac, hdc', if_true, Bool.false_eq_true, if_false]
    constructor
    · intro hle
      have hlt1 : st.clue_index < cs.length := by omega
      have hget1 : cs[st.clue_index]? = some cs[st.clue_index] := List.getElem?_eq_getElem hlt1
      unfold processCell
      simp only [hac, hdc', Bool.or_false, Bool.false_eq_true, if_true, if_false, hget1]
      refine ⟨_, rfl, ?_, ?_, ?_, ?_, ?_⟩
      · simp
      · simp [insertAssoc_fresh st.across st.clue_number _ ha]
      · simp
      · intro p hp
        simp only at hp
        rw [insertAssoc_fresh st.across st.clue_number _ ha] at hp
        rcases List.mem_append.1 hp with h1 | h2
        · have := ha p h1; simp; omega
        · simp at h2; simp [h2]
      · intro p hp
        simp only at hp
        have := hd p hp; simp; omega
    · intro hidx hgt
      have hget1 : cs[st.clue_index]? = none := by
        rw [List.getElem?_eq_none]
        omega
      unfold processCell
      simp only [hac, hdc', Bool.or_false, Bool.false_eq_true, if_true, if_false, hget1]
      exact ⟨_, rfl⟩
  · -- down only
    have hac' : cell_needs_across_clue g r c = false := eq_false_of_ne_true hac
    simp only [hac', hdc, if_true, Bool.false_eq_true, if_false]
    constructor
    · intro hle
      have hlt1 : st.clue_index < cs.length := by omega
      have hget1 : cs[st.clue_index]? = some cs[st.clue_index] := List.getElem?_eq_getElem hlt1
      unfold processCell
      simp only [hac', hdc, Bool.false_or, Bool.false_eq_true, if_true, if_false, hget1]
      refine ⟨_, rfl, ?_, ?_, ?_, ?_, ?_⟩
      · simp
      · simp
      · simp [insertAssoc_fresh st.down st.clue_number _ hd]
      · intro p hp
        simp only at hp
        have := ha p hp; simp; omega
      · intro p hp
        simp only at hp
        rw [insertAssoc_fresh st.down st.clue_number _ hd] at hp
        rcases List.mem_append.1 hp with h1 | h2
        · have := hd p h1; simp; omega
        · simp at h2; simp [h2]
    · intro hidx hgt
      have hget1 : cs[st.clue_index]? = none := by
        rw [List.getElem?_eq_none]
        omega
      unfold processCell
      simp only [hac', hdc, Bool.false_or, Bool.false_eq_true, if_true, if_false, hget1]
      exact ⟨_, rfl⟩
  · -- neither
    have hac' : cell_needs_across_clue g r c = false := eq_false_of_ne_true hac
    have hdc' : cell_needs_down_clue g r c = false := eq_false_of_ne_true hdc
    simp only [hac', hdc', Bool.false_eq_true, if_false]
    constructor
    · intro _hle
      unfold processCell
      simp only [hac', hdc', Bool.or_self, Bool.false_eq_true, if_false]
      exact ⟨st, rfl, by omega, by omega, by omega, ha, hd⟩
    · intro hidx hgt
      omega

end Puz

namespace Puz

/-- The `process_clues` scan over a cell list: starting from a state whose map
keys are below the running clue number, it succeeds iff the remaining clue
strings cover all across/down slots of the scanned cells, and then consumes
exactly that many strings while growing the across and down maps by exactly
the across and down slot counts; with too few strings it fails with
`InvalidClues`. -/
theorem processCells_spec (g : List (List Char)) (cs : List String) :
    ∀ (cells : List (Nat × Nat)) (st : ClueScanState),
      (∀ p ∈ st.across, p.1 < st.clue_number) →
      (∀ p ∈ st.down, p.1 < st.clue_number) →
      (st.clue_index + (acrossCount g cells + downCount g cells) ≤ cs.length →
        ∃ st', processCells g cs cells st = .ok st' ∧
          st'.clue_index = st.clue_index + (acrossCount g cells + downCount g cells) ∧
          st'.across.length = st.across.length + acrossCount g cells ∧
          st'.down.length = st.down.length + downCount g cells ∧
          (∀ p ∈ st'.across, p.1 < st'.clue_number) ∧
          (∀ p ∈ st'.down, p.1 < st'.clue_number)) ∧
      (st.clue_index ≤ cs.length →
        cs.length < st.clue_index + (acrossCount g cells + downCount g cells) →
        ∃ s, processCells g cs cells st = .error (.InvalidClues s)) := by
  intro cells
  induction cells with
  | nil =>
    intro st ha hd
    have ha0 : acrossCount g [] = 0 := rfl
    have hd0 : downCount g [] = 0 := rfl
    constructor
    · intro hle
      exact ⟨st, rfl, by omega, by omega, by omega, ha, hd⟩
    · intro hidx hgt
      rw [ha0, hd0] at hgt
      omega
  | cons rc rest ih =>
    obtain ⟨r, c⟩ := rc
    intro st ha hd
    have hcell := processCell_spec g cs r c st ha hd
    have haeq : acrossCount g ((r, c) :: rest) =
        (if cell_needs_across_clue g r c then 1 else 0) + acrossCount g rest := rfl
    have hdeq : downCount g ((r, c) :: rest) =
        (if cell_needs_down_clue g r c then 1 else 0) + downCount g rest := rfl
    constructor
    · intro hle
      rw [haeq, hdeq] at hle
      have hle1 : st.clue_index + ((if cell_needs_across_clue g r c then 1 else 0) +
          (if cell_needs_down_clue g r c then 1 else 0)) ≤ cs.length := by omega
      obtain ⟨st1, hok1, hidx1, hal1, hdl1, hka1, hkd1⟩ := hcell.1 hle1
      have hle2 : st1.clue_index + (acrossCount g rest + downCount g rest) ≤ cs.length := by
        omega
      obtain ⟨st', hok', hidx', hal', hdl', hka', hkd'⟩ := (ih st1 hka1 hkd1).1 hle2
      refine ⟨st', ?_, by rw [haeq, hdeq]; omega, by rw [haeq]; omega, by rw [hdeq]; omega,
        hka', hkd'⟩
      rw [processCells]
      dsimp only
      rw [hok1]
      exact hok'
    · intro hidx hgt
      rw [haeq, hdeq] at hgt
      by_cases hfirst : cs.length < st.clue_index +
          ((if cell_needs_across_clue g r c then 1 else 0) +
            (if cell_needs_down_clue g r c then 1 else 0))
      · obtain ⟨msg, herr⟩ := hcell.2 hidx hfirst
        refine ⟨msg, ?_⟩
        rw [processCells]
        dsimp only
        rw [herr]
      · push_neg at hfirst
        obtain ⟨st1, hok1, hidx1, _, _, hka1, hkd1⟩ := hcell.1 hfirst
        have hidx1le : st1.clue_index ≤ cs.length := by omega
        have hrest : cs.length < st1.clue_index + (acrossCount g rest + downCount g rest) := by
          omega
        obtain ⟨msg, herr⟩ := (ih st1 hka1 hkd1).2 hidx1le hrest
        refine ⟨msg, ?_⟩
        rw [processCells]
        dsimp only
        rw [hok1]
        exact herr

end Puz

namespace Puz

/-- C5: `process_clues` fails with an `InvalidClues` error when the flat clue
list is shorter than the number of across/down slots demanded by the grid
scan (exhausted before every entry-starting cell is served), fails with an
`InvalidClues` error when strings remain unconsumed after the scan (the list
is longer than the demanded slots), and succeeds in all other cases (the
lengths agree). -/
theorem process_clues_success_iff (g : List (List Char)) (cs : List String) :
    (cs.length < acrossCount g (gridCells g) + downCount g (gridCells g) →
      isInvalidCluesError (process_clues g cs) = true) ∧
    (acrossCount g (gridCells g) + downCount g (gridCells g) < cs.length →
      isInvalidCluesError (process_clues g cs) = true) ∧
    (cs.length = acrossCount g (gridCells g) + downCount g (gridCells g) →
      (process_clues g cs).isOk = true) := by
  have hspec := processCells_spec g cs (gridCells g)
      { across := [], down := [], clue_index := 0, clue_number := 1 }
      (by intro p hp; cases hp) (by intro p hp; cases hp)
  dsimp only at hspec
  refine ⟨?_, ?_, ?_⟩
  · intro hlt
    obtain ⟨msg, herr⟩ := hspec.2 (by omega) (by omega)
    unfold process_clues
    rw [herr]
    rfl
  · intro hlt
    obtain ⟨st', hok, hidx, _, _, _, _⟩ := hspec.1 (by omega)
    unfold process_clues
    rw [hok]
    dsimp only
    rw [if_pos (by omega)]
    rfl
  · intro heq
    obtain ⟨st', hok, hidx, _, _, _, _⟩ := hspec.1 (by omega)
    unfold process_clues
    rw [hok]
    dsimp only
    rw [if_neg (by omega)]
    rfl

/-- Concrete instances of `process_clues_success_iff` on the 1x2 grid `--`
(one across slot, no down slot): one clue string succeeds, an empty clue list
is a shortfall failure, two strings are a surplus failure. -/
theorem process_clues_success_iff_witness :
    (process_clues [['-', '-']] ["A"]).isOk = true ∧
    isInvalidCluesError (process_clues [['-', '-']] []) = true ∧
    isInvalidCluesError (process_clues [['-', '-']] ["A", "B"]) = true :=
  ⟨(process_clues_success_iff [['-', '-']] ["A"]).2.2 (by decide),
   (process_clues_success_iff [['-', '-']] []).1 (by decide),
   (process_clues_success_iff [['-', '-']] ["A", "B"]).2.1 (by decide)⟩

/-- C10: a successful clue derivation produces an across map with exactly one
entry per across-starting cell and a down map with one entry per
down-starting cell (clue numbers are distinct within each map, so no
insertion collides), which is precisely the recount `count_expected_clues`
performs; hence the validator's `validate_clue_consistency` accepts every
puzzle carrying this blank grid and these clues. -/
theorem process_clues_matches_validator (g : List (List Char)) (cs : List String)
    (cl : Clues) (h : process_clues g cs = .ok cl) :
    cl.across.length = (count_expected_clues g).1 ∧
    cl.down.length = (count_expected_clues g).2 ∧
    (∀ p : Puzzle, p.grid.blank = g → p.clues = cl →
      validate_clue_consistency p = .ok ()) := by
  have hlens : cl.across.length = acrossCount g (gridCells g) ∧
      cl.down.length = downCount g (gridCells g) := by
    unfold process_clues at h
    cases hpc : processCells g cs (gridCells g)
        { across := [], down := [], clue_index := 0, clue_number := 1 } with
    | error e => rw [hpc] at h; cases h
    | ok final =>
      rw [hpc] at h
      dsimp only at h
      split at h
      · cases h
      · have hcl : cl = { across := final.across, down := final.down } :=
          (Except.ok.inj h).symm
        have hspec := processCells_spec g cs (gridCells g)
            { across := [], down := [], clue_index := 0, clue_number := 1 }
            (by intro p hp; cases hp) (by intro p hp; cases hp)
        dsimp only at hspec
        by_cases hN : 0 + (acrossCount g (gridCells g) + downCount g (gridCells g)) ≤ cs.length
        · obtain ⟨st', hok, hidx, hal, hdl, _, _⟩ := hspec.1 hN
          rw [hpc] at hok
          have hst : final = st' := Except.ok.inj hok
          rw [hcl, hst]
          dsimp only
          simp only [List.length_nil] at hal hdl
          exact ⟨by omega, by omega⟩
        · exfalso
          obtain ⟨msg, herr⟩ := hspec.2 (by omega) (by omega)
          rw [hpc] at herr
          cases herr
  have hce1 : (count_expected_clues g).1 = acrossCount g (gridCells g) := rfl
  have hce2 : (count_expected_clues g).2 = downCount g (gridCells g) := rfl
  refine ⟨by rw [hce1]; exact hlens.1, by rw [hce2]; exact hlens.2, ?_⟩
  intro p hpb hpcl
  unfold validate_clue_consistency
  rw [hpb, hpcl]
  rw [if_neg (by rw [hce1]; omega), if_neg (by rw [hce2]; omega)]

/-- Concrete instance of `process_clues_matches_validator` on the 1x2 grid:
the derived maps have the recounted sizes and a puzzle carrying them passes
`validate_clue_consistency`. -/
theorem process_clues_matches_validator_witness :
    ([((1 : Nat), "A")].length = (count_expected_clues [['-', '-']]).1) ∧
    (([] : List (Nat × String)).length = (count_expected_clues [['-', '-']]).2) ∧
    validate_clue_consistency
      { info := { title := "", author := "", copyright := "", notes := "",
                  width := 2, height := 1, version := "", is_scrambled := false },
        grid := { blank := [['-', '-']], solution := [['A', 'B']] },
        clues := { across := [(1, "A")], down := [] },
        extensions := { rebus := none, circles := none, given := none } } = .ok () := by
  have h := process_clues_matches_validator [['-', '-']] ["A"]
      { across := [(1, "A")], down := [] } (by decide)
  exact ⟨h.1, h.2.1, h.2.2 _ rfl rfl⟩

end Puz

namespace Puz

/-- A stream with no NUL byte exhausts `readCString`. -/
theorem readCString_err (l : List Nat) (h : l.count 0 = 0) :
    readCString l = .error .IoError := by
  induction l with
  | nil => rfl
  | cons b rest ih =>
    have hcc : (b :: rest).count 0 = rest.count 0 + (if b = 0 then 1 else 0) := by
      simp [List.count_cons]
    have hb : b ≠ 0 := by
      intro hb0
      subst hb0
      simp [List.count_cons] at h
    have hrest : rest.count 0 = 0 := by
      rw [if_neg hb] at hcc
      omega
    rw [readCString, if_neg hb, ih hrest]

/-- A stream with a NUL byte yields the run before its first NUL, leaves the
bytes after that NUL, and loses exactly one NUL from its count. -/
theorem readCString_count (l : List Nat) (h : 0 < l.count 0) :
    readCString l = .ok (l.takeWhile (fun b => b != 0), (l.dropWhile (fun b => b != 0)).tail) ∧
    ((l.dropWhile (fun b => b != 0)).tail).count 0 = l.count 0 - 1 := by
  induction l with
  | nil => simp at h
  | cons b rest ih =>
    have hcc : (b :: rest).count 0 = rest.count 0 + (if b = 0 then 1 else 0) := by
      simp [List.count_cons]
    by_cases hb : b = 0
    · subst hb
      have ht : (0 :: rest).takeWhile (fun x => x != 0) = [] := by
        simp [List.takeWhile_cons]
      have hd : (0 :: rest).dropWhile (fun x => x != 0) = 0 :: rest := by
        simp [List.dropWhile_cons]
      constructor
      · rw [readCString, if_pos rfl, ht, hd]
        simp only [List.tail_cons]
      · rw [hd]
        rw [if_pos rfl] at hcc
        simp only [List.tail_cons]
        omega
    · have hbne : (b != 0) = true := by simp [hb]
      have ht : (b :: rest).takeWhile (fun x => x != 0) =
          b :: rest.takeWhile (fun x => x != 0) := by
        simp [List.takeWhile_cons, hbne]
      have hd : (b :: rest).dropWhile (fun x => x != 0) =
          rest.dropWhile (fun x => x != 0) := by
        simp [List.dropWhile_cons, hbne]
      have hrest : 0 < rest.count 0 := by
        rw [if_neg hb] at hcc
        omega
      obtain ⟨hok, hcnt⟩ := ih hrest
      constructor
      · rw [readCString, if_neg hb, hok, ht, hd]
      · rw [hd, hcnt, hcc, if_neg hb]
        omega

/-- `read_string_until_nul` on a stream holding a NUL: the decoded run before
the first NUL, leaving the bytes after it. -/
theorem read_string_until_nul_count (l : List Nat) (h : 0 < l.count 0) :
    read_string_until_nul l =
      .ok (puzDecode (l.takeWhile (fun b => b != 0)),
        (l.dropWhile (fun b => b != 0)).tail) := by
  rw [read_string_until_nul, (readCString_count l h).1]
  dsimp only
  rw [decode_puz_string_eq_puzDecode]

/-- `read_string_until_nul` fails (with an I/O error) exactly as `readCString`
does when the stream holds no NUL. -/
theorem read_string_until_nul_err (l : List Nat) (h : l.count 0 = 0) :
    read_string_until_nul l = .error .IoError := by
  rw [read_string_until_nul, readCString_err l h]

/-- The clue loop fails with `InvalidClueCount` reporting the clues read so
far when the stream holds fewer NUL-terminated strings than demanded. -/
theorem readClues_short (expected : Nat) :
    ∀ (k found : Nat) (input : List Nat), input.count 0 < k →
      readClues expected found k input =
        .error (.InvalidClueCount expected (found + input.count 0)) := by
  intro k
  induction k with
  | zero => intro found input h; omega
  | succ k ih =>
    intro found input h
    by_cases hz : input.count 0 = 0
    · rw [readClues, read_string_until_nul_err input hz, hz]
      rfl
    · have hpos : 0 < input.count 0 := by omega
      rw [readClues, read_string_until_nul_count input hpos]
      dsimp only
      rw [ih (found + 1) _ (by
        rw [(readCString_count input hpos).2]
        omega)]
      rw [(readCString_count input hpos).2]
      have : found + 1 + (input.count 0 - 1) = found + input.count 0 := by omega
      rw [this]

/-- A successful clue loop returns exactly `k` strings: the decodings of the
first `k` NUL-terminated runs of the stream, in file order. -/
theorem readClues_ok_inv (expected : Nat) :
    ∀ (k found : Nat) (input : List Nat) (clues : List String) (r : List Nat),
      readClues expected found k input = .ok (clues, r) →
      clues.length = k ∧ clues = (nulChunks k input).map puzDecode := by
  intro k
  induction k with
  | zero =>
    intro found input clues r h
    rw [readClues] at h
    obtain ⟨h1, _⟩ := Prod.mk.injEq .. ▸ (Except.ok.inj h)
    exact ⟨by rw [← h1]; rfl, by rw [← h1]; rfl⟩
  | succ k ih =>
    intro found input clues r h
    rw [readClues] at h
    cases hrd : read_string_until_nul input with
    | error e => rw [hrd] at h; cases h
    | ok pr =>
      obtain ⟨clue, rest⟩ := pr
      rw [hrd] at h
      dsimp only at h
      cases hrc : readClues expected (found + 1) k rest with
      | error e => rw [hrc] at h; cases h
      | ok pr2 =>
        obtain ⟨cs2, r2⟩ := pr2
        rw [hrc] at h
        dsimp only at h
        have hpair := Except.ok.inj h
        have hclues : clue :: cs2 = clues := congrArg Prod.fst hpair
        obtain ⟨hlen2, hcs2⟩ := ih (found + 1) rest cs2 r2 hrc
        have hcount : 0 < input.count 0 := by
          by_contra hc
          rw [read_string_until_nul_err input (by omega)] at hrd
          cases hrd
        have hread := read_string_until_nul_count input hcount
        rw [hrd] at hread
        have hclue : clue = puzDecode (input.takeWhile (fun b => b != 0)) :=
          congrArg Prod.fst (Except.ok.inj hread)
        have hrest : rest = (input.dropWhile (fun b => b != 0)).tail :=
          congrArg Prod.snd (Except.ok.inj hread)
        constructor
        · rw [← hclues]
          simp [hlen2]
        · rw [← hclues, nulChunks]
          simp only [List.map_cons]
          rw [← hclue, hcs2, hrest]

end Puz

namespace Puz

/-- C9: after title, author and copyright have been read successfully
(leaving the stream `r3`), `parse_strings` fails with
`InvalidClueCount{expected := num_clues, found := clues read so far}`
whenever the stream ends before the demanded clue strings can all be read
(the number read equals the number of NUL terminators left), and on success
it returns exactly `num_clues` clue strings: the decodings of the
NUL-terminated runs of `r3`, in file order. -/
theorem parse_strings_spec (input : List Nat) (n : Nat)
    (t a c : String) (r1 r2 r3 : List Nat)
    (ht : read_string_until_nul input = .ok (t, r1))
    (ha2 : read_string_until_nul r1 = .ok (a, r2))
    (hc : read_string_until_nul r2 = .ok (c, r3)) :
    (r3.count 0 < n →
      parse_strings input n = .error (.InvalidClueCount n (r3.count 0))) ∧
    (∀ (sd : StringData) (r : List Nat), parse_strings input n = .ok (sd, r) →
      sd.clues.length = n ∧ sd.clues = (nulChunks n r3).map puzDecode) := by
  constructor
  · intro hshort
    unfold parse_strings
    rw [ht]
    dsimp only
    rw [ha2]
    dsimp only
    rw [hc]
    dsimp only
    rw [readClues_short n n 0 r3 hshort]
    dsimp only
    rw [Nat.zero_add]
  · intro sd r h
    unfold parse_strings at h
    rw [ht] at h
    dsimp only at h
    rw [ha2] at h
    dsimp only at h
    rw [hc] at h
    dsimp only at h
    cases hcl : readClues n 0 n r3 with
    | error e => rw [hcl] at h; cases h
    | ok pr =>
      obtain ⟨clues, r4⟩ := pr
      rw [hcl] at h
      dsimp only at h
      cases hn : read_string_until_nul r4 with
      | error e => rw [hn] at h; cases h
      | ok pr2 =>
        obtain ⟨notes, r5⟩ := pr2
        rw [hn] at h
        dsimp only at h
        split at h
        · cases h
        · have hsd : sd =
              { title := t, author := a, copyright := c, notes := notes,
                clues := clues } :=
            (congrArg Prod.fst (Except.ok.inj h)).symm
          obtain ⟨hlen, hchunks⟩ := readClues_ok_inv n n 0 r3 clues r4 hcl
          rw [hsd]
          exact ⟨hlen, hchunks⟩

/-- Concrete instance of `parse_strings_spec`: the stream holds title "T",
author "A", copyright "C" and then a single clue string while two clues are
demanded, so the parse fails reporting `found = 1`. -/
theorem parse_strings_spec_witness :
    parse_strings [84, 0, 65, 0, 67, 0, 99, 49, 0] 2 =
      .error (.InvalidClueCount 2 (([99, 49, 0] : List Nat).count 0)) :=
  (parse_strings_spec [84, 0, 65, 0, 67, 0, 99, 49, 0] 2 "T" "A" "C"
    [65, 0, 67, 0, 99, 49, 0] [67, 0, 99, 49, 0] [99, 49, 0]
    (by decide) (by decide) (by decide)).1 (by decide)

end Puz

namespace Puz

/-- C2: whenever the whole-file parse succeeds, the returned puzzle's blank
and solution grids have the same number of rows, corresponding rows of equal
length, and a cell of the blank grid is the blocked marker `'.'` iff the
solution cell at the same position is `'.'`. -/
theorem parse_puzzle_grid_invariant (input : List Nat) (pr : ParseResult Puzzle)
    (h : parse_puzzle input = .ok pr) :
    pr.result.grid.blank.length = pr.result.grid.solution.length ∧
    (∀ k, (pr.result.grid.blank.getD k []).length =
      (pr.result.grid.solution.getD k []).length) ∧
    (∀ r c bc sc, cellAt pr.result.grid.blank r c = some bc →
      cellAt pr.result.grid.solution r c = some sc →
      (bc = TAKEN_SQUARE ↔ sc = TAKEN_SQUARE)) := by
  unfold parse_puzzle at h
  cases hm : validate_file_magic input with
  | error e => rw [hm] at h; cases h
  | ok r0 =>
    rw [hm] at h
    dsimp only at h
    cases hh : parse_header r0 with
    | error e => rw [hh] at h; cases h
    | ok p1 =>
      obtain ⟨header, r1⟩ := p1
      rw [hh] at h
      dsimp only at h
      cases hg : parse_grids r1 header.width header.height with
      | error e => rw [hg] at h; cases h
      | ok p2 =>
        obtain ⟨grids, r2⟩ := p2
        rw [hg] at h
        dsimp only at h
        cases hs : parse_strings r2 header.num_clues with
        | error e => rw [hs] at h; cases h
        | ok p3 =>
          obtain ⟨strings, r3⟩ := p3
          rw [hs] at h
          dsimp only at h
          cases he : parse_extensions_with_recovery r3 header.width header.height with
          | error e => rw [he] at h; cases h
          | ok p4 =>
            obtain ⟨extensions, ext_warnings⟩ := p4
            rw [he] at h
            dsimp only at h
            cases hcl : process_clues grids.blank strings.clues with
            | error e => rw [hcl] at h; cases h
            | ok clues =>
              rw [hcl] at h
              dsimp only at h
              split at h
              · cases h
              · rename_i u hv
                have hinj := Except.ok.inj h
                rw [← hinj]
                dsimp only
                unfold validate_puzzle at hv
                dsimp only at hv
                cases hd : validate_puzzle_dimensions header.width header.height with
                | error e => rw [hd] at hv; cases hv
                | ok u2 =>
                  rw [hd] at hv
                  dsimp only at hv
                  cases hvg : validate_grid_structure grids.blank grids.solution with
                  | error e => rw [hvg] at hv; cases hv
                  | ok u3 =>
                    obtain ⟨⟩ := u3
                    have hspec := validate_grid_structure_ok grids.blank grids.solution hvg
                    exact ⟨hspec.1, hspec.2.1,
                      fun r c bc sc hb hsc => (hspec.2.2 r c bc sc hb hsc).1⟩

/-- Concrete instance of `parse_puzzle_grid_invariant`: the full pipeline on
`demoFile` succeeds and the returned grids agree. -/
theorem parse_puzzle_grid_invariant_witness :
    demoParse.result.grid.blank.length = demoParse.result.grid.solution.length ∧
    (demoParse.result.grid.blank.getD 0 []).length =
      (demoParse.result.grid.solution.getD 0 []).length ∧
    (cellAt demoParse.result.grid.blank 0 1 = some '-' →
      cellAt demoParse.result.grid.solution 0 1 = some 'B' →
      ('-' = TAKEN_SQUARE ↔ 'B' = TAKEN_SQUARE)) := by
  have h := parse_puzzle_grid_invariant demoFile demoParse (by decide)
  exact ⟨h.1, h.2.1 0, fun hb hs => h.2.2 0 1 '-' 'B' hb hs⟩

end Puz
